import Mathlib

/-!
Verification of the Obsidium Minecraft server core (protocol 770, game
version 1.21.5) against its natural-language specification.

The Rust sources are shallowly embedded: byte streams are `List Nat`
(each element a byte value), fallible reads return
`Except ServerError (α × List Nat)` pairing the parsed value with the
unconsumed tail, machine integers are modelled as `Int`/`Nat` with
explicit two's-complement reductions modulo `2 ^ 32` / `2 ^ 64` where the
Rust code casts or wraps.  The zlib deflate/inflate streams live in the
external `flate2` crate, not in this repository, so the compression and
decompression codecs are parameterised by an oracle for the raw
deflate/inflate transformation; every size check, threshold check and
framing decision of `src/protocol/compression.rs` is embedded literally.
-/

namespace Obsidium

/-- Error type from `src/error.rs` (`ServerError`).  The `Io` variant of the
source carries a `std::io::Error`; the embedding does not need its payload.
The `Compression`/`Decompression` variants carry zlib errors. -/
inductive ServerError where
  | io : ServerError
  | protocol : String → ServerError
  | compressionErr : ServerError
  | decompressionErr : ServerError
deriving DecidableEq, Repr

/-- Result alias mirroring `src/error.rs` (`pub type Result<T> = ...`). -/
abbrev Res (α : Type) := Except ServerError α

/-- Read exactly `n` bytes (Rust `read_exact`): an `Io` error when the
stream is too short, otherwise the bytes and the rest of the stream. -/
def readExact (n : Nat) (bs : List Nat) : Res (List Nat × List Nat) :=
  if bs.length < n then .error .io else .ok (bs.take n, bs.drop n)

/-- Does a result hold a `Protocol` error?  (`ServerError::Protocol`). -/
def isProtocolError {α : Type} (r : Res α) : Bool :=
  match r with
  | .error (.protocol _) => true
  | _ => false

/-- Reinterpret a `u32` bit pattern as an `i32` (Rust `as i32`). -/
def toI32 (v : Nat) : Int :=
  if v < 2 ^ 31 then (v : Int) else (v : Int) - 2 ^ 32

/-- Two's-complement `u32` bit pattern of an `i32` (Rust `as u32`). -/
def toU32 (x : Int) : Nat := (x % (2 ^ 32 : Int)).toNat

/-- Loop body of `VarInt::write` (`src/protocol/types.rs`): emit the low
seven bits, set the continuation bit when more bits remain, and repeat on
`value >> 7`.  The loop runs at most `VarInt::MAX_SIZE = 5` times on a
`u32`, so a structural fuel of 5 is exact (the fuel-exhausted branch is
unreachable for inputs below `2 ^ 32`). -/
def varIntWriteAux : Nat → Nat → List Nat
  | 0, _ => []
  | fuel + 1, v =>
    let b := v &&& 0x7F
    let v2 := v >>> 7
    if v2 = 0 then [b] else (b ||| 0x80) :: varIntWriteAux fuel v2

/-- `VarInt::write`: the value is first cast to `u32`. -/
def varIntWrite (x : Int) : List Nat := varIntWriteAux 5 (toU32 x)

/-- Loop body of `VarInt::len` (`src/protocol/types.rs`): count bytes by
shifting the `u32` value right seven bits per step. -/
def varIntLenAux : Nat → Nat → Nat
  | 0, _ => 0
  | fuel + 1, v =>
    let v2 := v >>> 7
    if v2 = 0 then 1 else 1 + varIntLenAux fuel v2

/-- `VarInt::len`: number of bytes `VarInt::write` will emit. -/
def varIntLen (x : Int) : Nat := varIntLenAux 5 (toU32 x)

/-- Loop body of `VarInt::read` (`src/protocol/types.rs`): accumulate
`(byte & 0x7F) << position` into an `i32` (kept as a `u32` bit pattern,
the shift discarding bits above 31 as Rust `<<` on `i32` does), stop on a
clear continuation bit, and fail with `Protocol` once `position` reaches
32 — that is, after reading a fifth continuation byte.  Recursion is
structural on the stream; an empty stream is `read_exact` failing. -/
def varIntReadAux : List Nat → Nat → Nat → Res (Int × List Nat)
  | [], _, _ => .error .io
  | b :: rest, acc, pos =>
    let acc2 := acc ||| (((b &&& 0x7F) <<< pos) % 2 ^ 32)
    if b &&& 0x80 = 0 then .ok (toI32 acc2, rest)
    else if 32 ≤ pos + 7 then .error (.protocol "VarInt too long")
    else varIntReadAux rest acc2 (pos + 7)

/-- `VarInt::read`. -/
def varIntRead (bs : List Nat) : Res (Int × List Nat) := varIntReadAux bs 0 0

/-- Is `b` a UTF-8 continuation byte (`0x80..0xBF`)? -/
def utf8Cont (b : Nat) : Bool := 0x80 ≤ b && b ≤ 0xBF

/-- UTF-8 validity of a byte sequence, as enforced by Rust
`String::from_utf8` (RFC 3629: no overlong forms, no surrogates, no code
points above `U+10FFFF`). -/
def validUtf8 : List Nat → Bool
  | [] => true
  | b :: rest =>
    if b ≤ 0x7F then validUtf8 rest
    else if b < 0xC2 then false
    else if b ≤ 0xDF then
      match rest with
      | c1 :: r => utf8Cont c1 && validUtf8 r
      | [] => false
    else if b ≤ 0xEF then
      match rest with
      | c1 :: c2 :: r =>
        (if b = 0xE0 then 0xA0 ≤ c1 && c1 ≤ 0xBF
         else if b = 0xED then 0x80 ≤ c1 && c1 ≤ 0x9F
         else utf8Cont c1) && utf8Cont c2 && validUtf8 r
      | _ => false
    else if b ≤ 0xF4 then
      match rest with
      | c1 :: c2 :: c3 :: r =>
        (if b = 0xF0 then 0x90 ≤ c1 && c1 ≤ 0xBF
         else if b = 0xF4 then 0x80 ≤ c1 && c1 ≤ 0x8F
         else utf8Cont c1) && utf8Cont c2 && utf8Cont c3 && validUtf8 r
      | _ => false
    else false

/-- `McString::read` (`src/protocol/types.rs`): a `VarInt` byte-length
prefix (negative rejected, capped at `MAX_LENGTH = 32767`), then that many
bytes, which must be valid UTF-8.  The string is kept as its byte list. -/
def mcStringRead (bs : List Nat) : Res (List Nat × List Nat) :=
  match varIntRead bs with
  | .error e => .error e
  | .ok (len, rest) =>
    if len < 0 then .error (.protocol "Negative string length")
    else if 32767 < len.toNat then .error (.protocol "String too long")
    else
      match readExact len.toNat rest with
      | .error e => .error e
      | .ok (bytes, rest2) =>
        if validUtf8 bytes then .ok (bytes, rest2)
        else .error (.protocol "Invalid UTF-8 in string")

/-- `McString::write`: rejects payloads beyond `MAX_LENGTH`, then emits the
`VarInt` byte length followed by the bytes. -/
def mcStringWrite (s : List Nat) : Res (List Nat) :=
  if 32767 < s.length then .error (.protocol "String too long")
  else .ok (varIntWrite s.length ++ s)

/-- `read_bool` (`src/protocol/types.rs`): one byte, any non-zero is true. -/
def readBool (bs : List Nat) : Res (Bool × List Nat) :=
  match readExact 1 bs with
  | .error e => .error e
  | .ok (bytes, rest) => .ok (bytes.headD 0 ≠ 0, rest)

/-- `write_bool`: `1` for true, `0` for false. -/
def writeBool (b : Bool) : List Nat := [if b then 1 else 0]

/-- `read_uuid`: sixteen raw bytes. -/
def readUuid (bs : List Nat) : Res (List Nat × List Nat) := readExact 16 bs

/-- `read_unsigned_short` in `HandshakePacket::read`: two big-endian bytes. -/
def readU16 (bs : List Nat) : Res (Nat × List Nat) :=
  match readExact 2 bs with
  | .error e => .error e
  | .ok (bytes, rest) => .ok (bytes.headD 0 * 256 + (bytes.drop 1).headD 0, rest)

/-- Big-endian bytes of a `u16` (`to_be_bytes`). -/
def beBytes2 (v : Nat) : List Nat := [v / 256 % 256, v % 256]

/-- Big-endian bytes of a `u64` bit pattern (`i64::to_be_bytes`). -/
def beBytes8 (v : Nat) : List Nat :=
  [v / 2 ^ 56 % 256, v / 2 ^ 48 % 256, v / 2 ^ 40 % 256, v / 2 ^ 32 % 256,
   v / 2 ^ 24 % 256, v / 2 ^ 16 % 256, v / 2 ^ 8 % 256, v % 256]

/-- Big-endian recombination of bytes (`i64::from_be_bytes`). -/
def beCombine (bs : List Nat) : Nat := bs.foldl (fun acc b => acc * 256 + b) 0

/-- Reinterpret a `u64` bit pattern as an `i64`. -/
def asI64 (v : Nat) : Int :=
  if v < 2 ^ 63 then (v : Int) else (v : Int) - 2 ^ 64

/-- Truncate an `i64` to an `i32` (Rust `as i32`). -/
def i64AsI32 (v : Int) : Int :=
  if v % (2 ^ 32 : Int) < 2 ^ 31 then v % (2 ^ 32 : Int) else v % (2 ^ 32 : Int) - 2 ^ 32

/-- Rust `<<` on `i64`: multiply and discard bits beyond the 64th, then
reinterpret as a signed value. -/
def i64Shl (v : Int) (k : Nat) : Int := asI64 ((v * 2 ^ k) % (2 ^ 64 : Int)).toNat

/-- Rust `>>` on `i64` (arithmetic shift): floor division by a power of
two, which Euclidean division by a positive divisor gives exactly. -/
def i64Shr (v : Int) (k : Nat) : Int := v / (2 ^ k : Int)

/-- The packed `Position` type of `src/protocol/types.rs` (each coordinate
an `i32` in the source). -/
structure Position where
  x : Int
  y : Int
  z : Int
deriving DecidableEq, Repr

/-- The `i64` bit pattern built by `Position::write`:
`((x & 0x3FFFFFF) << 38) | ((z & 0x3FFFFFF) << 12) | (y & 0xFFF)`.
A two's-complement AND with `0x3FFFFFF` (resp. `0xFFF`) is reduction
modulo `2 ^ 26` (resp. `2 ^ 12`), and the three fields occupy disjoint
bit ranges. -/
def Position.packedVal (p : Position) : Nat :=
  ((p.x % (2 ^ 26 : Int)).toNat <<< 38) ||| ((p.z % (2 ^ 26 : Int)).toNat <<< 12) |||
    (p.y % (2 ^ 12 : Int)).toNat

/-- `Position::write`: the packed value as eight big-endian bytes. -/
def positionWrite (p : Position) : List Nat := beBytes8 p.packedVal

/-- Field recovery of `Position::read` from the packed `i64` value:
`x = (val >> 38) as i32`, `y = (val << 52 >> 52) as i32`,
`z = (val << 26 >> 38) as i32`, with arithmetic (sign-extending) right
shifts. -/
def positionOfVal (v : Nat) : Position :=
  let val := asI64 v
  { x := i64AsI32 (i64Shr val 38)
    y := i64AsI32 (i64Shr (i64Shl val 52) 52)
    z := i64AsI32 (i64Shr (i64Shl val 26) 38) }

/-- `Position::read`: eight big-endian bytes, then sign-extending shifts. -/
def positionRead (bs : List Nat) : Res (Position × List Nat) :=
  match readExact 8 bs with
  | .error e => .error e
  | .ok (bytes, rest) => .ok (positionOfVal (beCombine bytes), rest)

/-- `ConnectionState` as declared in `src/protocol/state.rs`: four
variants.  (`src/server/minecraft.rs` additionally matches on a
`ConnectionState::Configuration` variant that this declaration does not
provide.) -/
inductive ConnectionState where
  | Handshaking : ConnectionState
  | Status : ConnectionState
  | Login : ConnectionState
  | Play : ConnectionState
deriving DecidableEq, Repr

/-- `ConnectionState::allows_compression`: only `Login` and `Play`. -/
def ConnectionState.allowsCompression : ConnectionState → Bool
  | .Login => true
  | .Play => true
  | _ => false

/-- The `Default` impl of `ConnectionState`: `Handshaking`. -/
def ConnectionState.defaultState : ConnectionState := .Handshaking

/-- `ProtocolState` (`src/protocol/state.rs`). -/
structure ProtocolState where
  state : ConnectionState
  compressionEnabled : Bool
  compressionThreshold : Option Nat
  protocolVersion : Option Int
deriving DecidableEq, Repr

/-- `ProtocolState::new`: default state, compression off, no version. -/
def ProtocolState.new : ProtocolState :=
  { state := ConnectionState.defaultState
    compressionEnabled := false
    compressionThreshold := none
    protocolVersion := none }

/-- `ProtocolState::transition_to`. -/
def ProtocolState.transitionTo (ps : ProtocolState) (s : ConnectionState) :
    ProtocolState :=
  { ps with state := s }

/-- `ProtocolState::enable_compression`: sets the flag and threshold only
when the current state allows compression, otherwise only logs a warning
and leaves the state unchanged. -/
def ProtocolState.enableCompression (ps : ProtocolState) (threshold : Nat) :
    ProtocolState :=
  if ps.state.allowsCompression then
    { ps with compressionEnabled := true, compressionThreshold := some threshold }
  else ps

/-- `ProtocolState::set_protocol_version`. -/
def ProtocolState.setProtocolVersion (ps : ProtocolState) (version : Int) :
    ProtocolState :=
  { ps with protocolVersion := some version }

/-- `MAX_PACKET_SIZE` (`src/protocol/mod.rs`). -/
def MAX_PACKET_SIZE : Nat := 2097151

/-- `MAX_UNCOMPRESSED_PACKET_SIZE` (`src/protocol/mod.rs`). -/
def MAX_UNCOMPRESSED_PACKET_SIZE : Nat := 8388608

/-- `Compression::compress_packet` (`src/protocol/compression.rs`),
parameterised by the raw zlib deflate transformation (external `flate2`
crate).  The inner payload is `VarInt(packet_id) || data`; oversized
payloads are rejected; payloads below the threshold are framed as
`VarInt(0) || payload`, others as `VarInt(uncompressed_length) ||
deflate(payload)` subject to the final `MAX_PACKET_SIZE` check.  Note the
returned frame carries no outer packet-length prefix. -/
def compressPacket (deflate : List Nat → List Nat) (threshold : Nat)
    (packetId : Int) (data : List Nat) : Res (List Nat) :=
  let uncompressed := varIntWrite packetId ++ data
  if MAX_UNCOMPRESSED_PACKET_SIZE < uncompressed.length then
    .error (.protocol "Uncompressed packet too large")
  else if uncompressed.length < threshold then
    .ok (varIntWrite 0 ++ uncompressed)
  else
    let result := varIntWrite uncompressed.length ++ deflate uncompressed
    if MAX_PACKET_SIZE < result.length then
      .error (.protocol "Compressed packet too large")
    else .ok result

/-- `Compression::decompress_packet`, parameterised by the raw zlib
inflate transformation, which receives the compressed bytes and the
output-buffer capacity and yields the inflated bytes (or `none` on a zlib
buffer error).  All checks of the source are embedded in order: negative
data length; the `0` marker whose literal remainder must be shorter than
the threshold; the `MAX_UNCOMPRESSED_PACKET_SIZE` cap; the
below-threshold rejection; and the post-inflate exact-length check. -/
def decompressPacket (inflate : List Nat → Nat → Option (List Nat))
    (threshold : Nat) (data : List Nat) : Res (Int × List Nat) :=
  match varIntRead data with
  | .error e => .error e
  | .ok (dataLength, compressedData) =>
    if dataLength < 0 then
      .error (.protocol "Negative data length in compressed packet")
    else if dataLength = 0 then
      if threshold ≤ compressedData.length then
        .error (.protocol "Uncompressed packet marked as compressed exceeds threshold")
      else
        match varIntRead compressedData with
        | .error e => .error e
        | .ok (packetId, remaining) => .ok (packetId, remaining)
    else
      if MAX_UNCOMPRESSED_PACKET_SIZE < dataLength.toNat then
        .error (.protocol "Uncompressed length too large")
      else if dataLength.toNat < threshold then
        .error (.protocol "Compressed packet below threshold")
      else
        match inflate compressedData dataLength.toNat with
        | none => .error (.protocol "Decompression buffer error")
        | some out =>
          if out.length ≠ dataLength.toNat then
            .error (.protocol "Decompressed length mismatch")
          else
            match varIntRead out with
            | .error e => .error e
            | .ok (packetId, remaining) => .ok (packetId, remaining)

/-- The per-connection state of `Connection` (`src/network/connection.rs`)
that the claims observe: the `ProtocolState` plus the optional compression
codec (`compression: Option<Compression>`), recorded by its threshold. -/
structure Conn where
  protocolState : ProtocolState
  compression : Option Nat
deriving DecidableEq, Repr

/-- `Connection::new`: fresh `ProtocolState`, no compression codec. -/
def Conn.new : Conn := { protocolState := ProtocolState.new, compression := none }

/-- `Connection::state`. -/
def Conn.state (c : Conn) : ConnectionState := c.protocolState.state

/-- `Connection::set_state`. -/
def Conn.setState (c : Conn) (s : ConnectionState) : Conn :=
  { c with protocolState := c.protocolState.transitionTo s }

/-- `Connection::set_protocol_version`. -/
def Conn.setProtocolVersion (c : Conn) (version : Int) : Conn :=
  { c with protocolState := c.protocolState.setProtocolVersion version }

/-- `Connection::enable_compression`: forwards to
`ProtocolState::enable_compression` (which guards on the state) but then
installs the compression codec unconditionally
(`self.compression = Some(Compression::new(threshold))`). -/
def Conn.enableCompression (c : Conn) (threshold : Nat) : Conn :=
  { protocolState := c.protocolState.enableCompression threshold
    compression := some threshold }

/-- The framing prefix of `Connection::read_packet`: read the
packet-length `VarInt` (via `read_varint`, the same algorithm as
`VarInt::read`), reject negative, zero and over-`MAX_PACKET_SIZE`
lengths, then read exactly that many payload bytes. -/
def readPacketFrame (stream : List Nat) : Res (List Nat × List Nat) :=
  match varIntRead stream with
  | .error e => .error e
  | .ok (packetLength, rest) =>
    if packetLength < 0 then .error (.protocol "Negative packet length")
    else if packetLength.toNat = 0 then .error (.protocol "Zero packet length")
    else if MAX_PACKET_SIZE < packetLength.toNat then
      .error (.protocol "Packet too large")
    else
      match readExact packetLength.toNat rest with
      | .error e => .error e
      | .ok (data, rest2) => .ok (data, rest2)

/-- `Connection::read_packet`: the framing prefix above, then either the
compression codec or a literal `VarInt` packet id over the payload.
Returns the parsed `(packet_id, fields)` and the unread remainder of the
stream. -/
def readPacket (compression : Option Nat)
    (inflate : List Nat → Nat → Option (List Nat)) (stream : List Nat) :
    Res ((Int × List Nat) × List Nat) :=
  match readPacketFrame stream with
  | .error e => .error e
  | .ok (data, rest) =>
    match compression with
    | some threshold =>
      match decompressPacket inflate threshold data with
      | .error e => .error e
      | .ok pr => .ok (pr, rest)
    | none =>
      match varIntRead data with
      | .error e => .error e
      | .ok (packetId, remaining) => .ok ((packetId, remaining), rest)

/-- The bytes `Connection::write_packet` writes to the socket for a packet
with id `packetId` and serialised body `body`.  With a compression codec
installed the frame is exactly the output of
`Compression::compress_packet` — no outer packet-length prefix is
prepended; without one the frame is
`VarInt(packet_id.len() + body.len()) || VarInt(packet_id) || body`. -/
def writePacketData (deflate : List Nat → List Nat) (compression : Option Nat)
    (packetId : Int) (body : List Nat) : Res (List Nat) :=
  match compression with
  | some threshold => compressPacket deflate threshold packetId body
  | none =>
    .ok (varIntWrite (varIntLen packetId + body.length) ++
          varIntWrite packetId ++ body)

/-- `HandshakePacket` (`src/protocol/packets/handshaking.rs`), id `0x00`.
The server address is kept as its UTF-8 byte list. -/
structure HandshakePacket where
  protocolVersion : Int
  serverAddress : List Nat
  serverPort : Nat
  nextState : Int
deriving DecidableEq, Repr

/-- `HandshakePacket::read`: `VarInt` protocol version, `McString`
address, big-endian `u16` port, `VarInt` next state. -/
def handshakeRead (bs : List Nat) : Res (HandshakePacket × List Nat) :=
  match varIntRead bs with
  | .error e => .error e
  | .ok (protocolVersion, r1) =>
    match mcStringRead r1 with
    | .error e => .error e
    | .ok (serverAddress, r2) =>
      match readU16 r2 with
      | .error e => .error e
      | .ok (serverPort, r3) =>
        match varIntRead r3 with
        | .error e => .error e
        | .ok (nextState, r4) =>
          .ok ({ protocolVersion, serverAddress, serverPort, nextState }, r4)

/-- `HandshakePacket::write`. -/
def handshakeWrite (p : HandshakePacket) : Res (List Nat) :=
  match mcStringWrite p.serverAddress with
  | .error e => .error e
  | .ok addr =>
    .ok (varIntWrite p.protocolVersion ++ addr ++ beBytes2 p.serverPort ++
          varIntWrite p.nextState)

/-- `MinecraftServer::handle_handshaking_packet`
(`src/server/minecraft.rs`): only when the packet id equals
`HandshakePacket::ID = 0x00` is the handshake parsed; the protocol
version is stored, then `next_state` `1` moves to `Status`, `2` and `3`
to `Login`, and anything else is a `Protocol` error.  Any other packet id
falls through the `if` and the handler returns `Ok(())` with the
connection untouched. -/
def handleHandshakingPacket (packetId : Int) (data : List Nat) (conn : Conn) :
    Res Conn :=
  if packetId = 0 then
    match handshakeRead data with
    | .error e => .error e
    | .ok (hs, _) =>
      let conn2 := conn.setProtocolVersion hs.protocolVersion
      if hs.nextState = 1 then .ok (conn2.setState .Status)
      else if hs.nextState = 2 then .ok (conn2.setState .Login)
      else if hs.nextState = 3 then .ok (conn2.setState .Login)
      else .error (.protocol "Invalid next state")
  else .ok conn

/-- A player property of `LoginSuccessPacket`
(`src/protocol/packets/login.rs`), strings kept as byte lists. -/
structure LoginProperty where
  name : List Nat
  value : List Nat
  signature : Option (List Nat)
deriving DecidableEq, Repr

/-- `Property::write`: name, value, `has_signature` bool, optional
signature. -/
def propertyWrite (p : LoginProperty) : Res (List Nat) :=
  match mcStringWrite p.name with
  | .error e => .error e
  | .ok n =>
    match mcStringWrite p.value with
    | .error e => .error e
    | .ok v =>
      match p.signature with
      | none => .ok (n ++ v ++ writeBool false)
      | some s =>
        match mcStringWrite s with
        | .error e => .error e
        | .ok sb => .ok (n ++ v ++ writeBool true ++ sb)

/-- `Property::read`. -/
def propertyRead (bs : List Nat) : Res (LoginProperty × List Nat) :=
  match mcStringRead bs with
  | .error e => .error e
  | .ok (name, r1) =>
    match mcStringRead r1 with
    | .error e => .error e
    | .ok (value, r2) =>
      match readBool r2 with
      | .error e => .error e
      | .ok (isSigned, r3) =>
        if isSigned then
          match mcStringRead r3 with
          | .error e => .error e
          | .ok (sig, r4) => .ok ({ name, value, signature := some sig }, r4)
        else .ok ({ name, value, signature := none }, r3)

/-- `LoginSuccessPacket` (`src/protocol/packets/login.rs`), id `0x02`. -/
structure LoginSuccessPacket where
  uuid : List Nat
  username : List Nat
  properties : List LoginProperty
  strictErrorHandling : Bool
deriving DecidableEq, Repr

/-- Serialise a list of properties in order. -/
def propertiesWrite : List LoginProperty → Res (List Nat)
  | [] => .ok []
  | p :: ps =>
    match propertyWrite p with
    | .error e => .error e
    | .ok b =>
      match propertiesWrite ps with
      | .error e => .error e
      | .ok bs => .ok (b ++ bs)

/-- Read `n` properties in order. -/
def propertiesRead : Nat → List Nat → Res (List LoginProperty × List Nat)
  | 0, bs => .ok ([], bs)
  | n + 1, bs =>
    match propertyRead bs with
    | .error e => .error e
    | .ok (p, rest) =>
      match propertiesRead n rest with
      | .error e => .error e
      | .ok (ps, rest2) => .ok (p :: ps, rest2)

/-- `LoginSuccessPacket::write`: UUID bytes, username, property count and
properties.  The line writing the trailing `strict_error_handling` bool is
commented out in the source (TODO for 1.21.5), so no bool is emitted. -/
def loginSuccessWrite (p : LoginSuccessPacket) : Res (List Nat) :=
  match mcStringWrite p.username with
  | .error e => .error e
  | .ok name =>
    match propertiesWrite p.properties with
    | .error e => .error e
    | .ok props =>
      .ok (p.uuid ++ name ++ varIntWrite p.properties.length ++ props)

/-- `LoginSuccessPacket::read`: UUID, username, `VarInt` property count
(the source iterates `0..count`, so a negative count reads zero
properties), the properties, and then a trailing `strict_error_handling`
bool read via `read_bool`. -/
def loginSuccessRead (bs : List Nat) : Res (LoginSuccessPacket × List Nat) :=
  match readUuid bs with
  | .error e => .error e
  | .ok (uuid, r1) =>
    match mcStringRead r1 with
    | .error e => .error e
    | .ok (username, r2) =>
      match varIntRead r2 with
      | .error e => .error e
      | .ok (count, r3) =>
        match propertiesRead count.toNat r3 with
        | .error e => .error e
        | .ok (properties, r4) =>
          match readBool r4 with
          | .error e => .error e
          | .ok (strictErrorHandling, r5) =>
            .ok ({ uuid, username, properties, strictErrorHandling }, r5)

/-- A connected player (`src/game/player.rs`); the claims only observe the
UUID and the identity of the record, so the gameplay fields are carried as
an opaque name.  UUIDs and socket addresses are identifier atoms. -/
structure Player where
  uuid : Nat
  username : List Nat
deriving DecidableEq, Repr

/-- Association-map lookup, the observable behaviour of `HashMap::get`. -/
def mapLookup {α : Type} : Nat → List (Nat × α) → Option α
  | _, [] => none
  | k, e :: t => if e.1 = k then some e.2 else mapLookup k t

/-- Dropping the entry with the given key, the observable behaviour of
`HashMap::remove`. -/
def mapRemove {α : Type} : Nat → List (Nat × α) → List (Nat × α)
  | _, [] => []
  | k, e :: t => if e.1 = k then mapRemove k t else e :: mapRemove k t

/-- `HashMap::insert`: replaces any entry with the same key. -/
def mapInsert {α : Type} (k : Nat) (v : α) (m : List (Nat × α)) :
    List (Nat × α) :=
  (k, v) :: mapRemove k m

/-- `PlayerManager` (`src/game/player.rs`): a UUID-keyed player map and an
address-keyed connection map. -/
structure PlayerManager where
  players : List (Nat × Player)
  connections : List (Nat × Nat)

/-- `PlayerManager::new`. -/
def PlayerManager.new : PlayerManager := { players := [], connections := [] }

/-- `PlayerManager::add_player`: insert the player under its UUID and map
the connection address to that UUID. -/
def PlayerManager.addPlayer (m : PlayerManager) (p : Player) (addr : Nat) :
    PlayerManager :=
  { players := mapInsert p.uuid p m.players
    connections := mapInsert addr p.uuid m.connections }

/-- `PlayerManager::remove_player`: remove the address from the connection
map; when it mapped to a UUID, remove and return that UUID entry from the
player map. -/
def PlayerManager.removePlayer (m : PlayerManager) (addr : Nat) :
    Option Player × PlayerManager :=
  match mapLookup addr m.connections with
  | none => (none, m)
  | some uuid =>
    (mapLookup uuid m.players,
     { players := mapRemove uuid m.players
       connections := mapRemove addr m.connections })

/-- `PlayerManager::get_player`. -/
def PlayerManager.getPlayer (m : PlayerManager) (uuid : Nat) : Option Player :=
  mapLookup uuid m.players

/-- `PlayerManager::get_player_by_addr`: resolve the address to a UUID,
then look the UUID up in the player map. -/
def PlayerManager.getPlayerByAddr (m : PlayerManager) (addr : Nat) :
    Option Player :=
  match mapLookup addr m.connections with
  | none => none
  | some uuid => m.getPlayer uuid

/-- `PlayerManager::player_count`: the size of the player map. -/
def PlayerManager.playerCount (m : PlayerManager) : Nat := m.players.length

/-- Bitwise OR is addition when the low `k` bits of one operand are clear
and the other operand lives entirely in those low `k` bits. -/
theorem lor_eq_add_of_dvd {a b k : Nat} (ha : 2 ^ k ∣ a) (hb : b < 2 ^ k) :
    a ||| b = a + b := by
  obtain ⟨c, rfl⟩ := ha
  apply Nat.eq_of_testBit_eq
  intro i
  rw [Nat.testBit_lor, Nat.testBit_mul_pow_two_add c hb i, Nat.testBit_mul_pow_two]
  by_cases h : i < k
  · simp [h, Nat.not_le.mpr h]
  · have hb2 : b.testBit i = false :=
      Nat.testBit_lt_two_pow
        (lt_of_lt_of_le hb (Nat.pow_le_pow_right (by omega) (Nat.not_lt.mp h)))
    simp [h, Nat.not_lt.mp h, hb2]

/-- The three fields of the packed position occupy disjoint bit ranges, so
the ORs of `Position::write` are sums. -/
theorem Position.packedVal_eq (p : Position) :
    p.packedVal =
      (p.x % (2 ^ 26 : Int)).toNat * 2 ^ 38 + (p.z % (2 ^ 26 : Int)).toNat * 2 ^ 12 +
        (p.y % (2 ^ 12 : Int)).toNat := by
  have hx0 : (0 : Int) ≤ p.x % (2 ^ 26 : Int) := Int.emod_nonneg _ (by norm_num)
  have hx1 : p.x % (2 ^ 26 : Int) < 2 ^ 26 := Int.emod_lt_of_pos _ (by norm_num)
  have hz0 : (0 : Int) ≤ p.z % (2 ^ 26 : Int) := Int.emod_nonneg _ (by norm_num)
  have hz1 : p.z % (2 ^ 26 : Int) < 2 ^ 26 := Int.emod_lt_of_pos _ (by norm_num)
  have hy0 : (0 : Int) ≤ p.y % (2 ^ 12 : Int) := Int.emod_nonneg _ (by norm_num)
  have hy1 : p.y % (2 ^ 12 : Int) < 2 ^ 12 := Int.emod_lt_of_pos _ (by norm_num)
  have h1 : ((p.x % (2 ^ 26 : Int)).toNat * 2 ^ 38) |||
      ((p.z % (2 ^ 26 : Int)).toNat * 2 ^ 12) =
      (p.x % (2 ^ 26 : Int)).toNat * 2 ^ 38 + (p.z % (2 ^ 26 : Int)).toNat * 2 ^ 12 :=
    lor_eq_add_of_dvd (k := 38) (dvd_mul_left _ _) (by omega)
  have h2 : ((p.x % (2 ^ 26 : Int)).toNat * 2 ^ 38 +
        (p.z % (2 ^ 26 : Int)).toNat * 2 ^ 12) ||| (p.y % (2 ^ 12 : Int)).toNat =
      (p.x % (2 ^ 26 : Int)).toNat * 2 ^ 38 + (p.z % (2 ^ 26 : Int)).toNat * 2 ^ 12 +
        (p.y % (2 ^ 12 : Int)).toNat :=
    lor_eq_add_of_dvd (k := 12)
      ⟨(p.x % (2 ^ 26 : Int)).toNat * 2 ^ 26 + (p.z % (2 ^ 26 : Int)).toNat, by ring⟩
      (by omega)
  unfold Position.packedVal
  rw [Nat.shiftLeft_eq, Nat.shiftLeft_eq, h1, h2]

/-- Big-endian byte recombination inverts byte splitting below `2 ^ 64`. -/
theorem beCombine_beBytes8 {v : Nat} (h : v < 2 ^ 64) :
    beCombine (beBytes8 v) = v := by
  simp only [beBytes8, beCombine, List.foldl]
  omega

/-- The packed position value fits in 64 bits. -/
theorem Position.packedVal_lt (p : Position) : p.packedVal < 2 ^ 64 := by
  rw [Position.packedVal_eq]
  have hx1 : p.x % (2 ^ 26 : Int) < 2 ^ 26 := Int.emod_lt_of_pos _ (by norm_num)
  have hz1 : p.z % (2 ^ 26 : Int) < 2 ^ 26 := Int.emod_lt_of_pos _ (by norm_num)
  have hy1 : p.y % (2 ^ 12 : Int) < 2 ^ 12 := Int.emod_lt_of_pos _ (by norm_num)
  omega

/-- Looking up the key just inserted finds the new value. -/
theorem mapLookup_mapInsert_self {α : Type} (k : Nat) (v : α)
    (m : List (Nat × α)) : mapLookup k (mapInsert k v m) = some v := by
  simp [mapLookup, mapInsert]

/-- Removing a key leaves lookups of other keys unchanged. -/
theorem mapLookup_mapRemove_ne {α : Type} {j k : Nat} (h : j ≠ k)
    (m : List (Nat × α)) : mapLookup j (mapRemove k m) = mapLookup j m := by
  have h2 : ¬(k = j) := by omega
  induction m with
  | nil => rfl
  | cons e t ih =>
    by_cases he : e.1 = k
    · have hj : ¬(e.1 = j) := by omega
      simp [mapRemove, mapLookup, he, hj, ih, h, h2]
    · by_cases hj : e.1 = j <;> simp [mapRemove, mapLookup, he, hj, ih, h, h2]

/-- Looking up a removed key yields nothing. -/
theorem mapLookup_mapRemove_self {α : Type} (k : Nat) (m : List (Nat × α)) :
    mapLookup k (mapRemove k m) = none := by
  induction m with
  | nil => rfl
  | cons e t ih =>
    by_cases he : e.1 = k <;> simp [mapRemove, mapLookup, he, ih]

/-- Inserting under a different key leaves a lookup unchanged. -/
theorem mapLookup_mapInsert_ne {α : Type} {j k : Nat} (h : j ≠ k) (v : α)
    (m : List (Nat × α)) : mapLookup j (mapInsert k v m) = mapLookup j m := by
  have hk : ¬(k = j) := by omega
  simp [mapInsert, mapLookup, hk, mapLookup_mapRemove_ne h]

/-- Unpacking the packed value recovers the coordinates whenever `x` and
`z` fit in 26 signed bits and `y` fits in 12 signed bits. -/
theorem positionOfVal_packedVal (p : Position)
    (hx0 : -2 ^ 25 ≤ p.x) (hx1 : p.x < 2 ^ 25)
    (hy0 : -2 ^ 11 ≤ p.y) (hy1 : p.y < 2 ^ 11)
    (hz0 : -2 ^ 25 ≤ p.z) (hz1 : p.z < 2 ^ 25) :
    positionOfVal p.packedVal = p := by
  obtain ⟨x, y, z⟩ := p
  rw [Position.packedVal_eq]
  simp only [positionOfVal, asI64, i64Shr, i64Shl, i64AsI32, Position.mk.injEq] at *
  refine ⟨?_, ?_, ?_⟩ <;> split_ifs <;> omega

/-- Claim C1.  The `ConnectionState` enum declared in
`src/protocol/state.rs` has exactly the four variants `Handshaking`,
`Status`, `Login` and `Play` — there is no fifth `Configuration` variant,
although `src/server/minecraft.rs` matches on one — and a fresh
`ProtocolState` starts in `Handshaking`. -/
theorem connectionState_variants_and_initial_state :
    ProtocolState.new.state = ConnectionState.Handshaking ∧
      ∀ s : ConnectionState,
        s = ConnectionState.Handshaking ∨ s = ConnectionState.Status ∨
          s = ConnectionState.Login ∨ s = ConnectionState.Play :=
  ⟨rfl, fun s => by cases s <;> simp⟩

/-- Claim C2.  The `LoginSuccessPacket` round-trip fails on the code:
`write` omits the trailing `strict_error_handling` bool (the emitting line
is commented out for 1.21.5) while `read` still consumes one, so decoding
the bytes just encoded runs off the end of the buffer and fails with an
`Io` error instead of returning the packet. -/
theorem loginSuccess_write_read_asymmetry :
    loginSuccessWrite
        { uuid := List.replicate 16 0, username := [65, 108, 101, 120],
          properties := [], strictErrorHandling := false } =
      .ok (List.replicate 16 0 ++ [4, 65, 108, 101, 120, 0]) ∧
    loginSuccessRead (List.replicate 16 0 ++ [4, 65, 108, 101, 120, 0]) =
      .error .io :=
  ⟨rfl, rfl⟩

/-- Claim C3.  With compression enabled, `Connection::write_packet` emits
exactly the output of `Compression::compress_packet` with no outer
packet-length prefix: for packet id `0x42` with body `[1, 2, 3]` below a
threshold of 64 the emitted frame is `[0x00, 0x42, 1, 2, 3]`, whose
leading `VarInt` decodes to `0` even though four bytes follow it, whereas
the uncompressed path does prepend the length (`[4, 0x42, 1, 2, 3]`). -/
theorem writePacket_compressed_frame_lacks_length :
    writePacketData id (some 64) 0x42 [1, 2, 3] = .ok [0, 0x42, 1, 2, 3] ∧
    varIntRead [0, 0x42, 1, 2, 3] = .ok (0, [0x42, 1, 2, 3]) ∧
    ([0x42, 1, 2, 3] : List Nat).length = 4 ∧
    writePacketData id none 0x42 [1, 2, 3] = .ok [4, 0x42, 1, 2, 3] :=
  ⟨rfl, rfl, rfl, rfl⟩

/-- Claim C4 (counterexample).  A packet with id `0x01` received in the
Handshaking state does not yield a `Protocol` error: the handler returns
`Ok` and leaves the connection unchanged. -/
theorem handshaking_unknown_id_not_rejected :
    handleHandshakingPacket 1 [] Conn.new = .ok Conn.new :=
  rfl

/-- Claim C4 (amended).  In the Handshaking state, a handshake packet
(id `0x00`) with `next_state = 1` moves the connection to `Status`,
`next_state = 2` or `3` moves it to `Login`, any other `next_state` yields
a `Protocol` error — but a packet with any id other than `0x00` is
silently ignored: the handler returns `Ok` with the connection
unchanged. -/
theorem handshaking_dispatch_behaviour :
    (∀ (i : Int) (d : List Nat) (c : Conn), i ≠ 0 →
      handleHandshakingPacket i d c = .ok c) ∧
    ∀ (d : List Nat) (h : HandshakePacket) (t : List Nat) (c : Conn),
      handshakeRead d = .ok (h, t) →
      (h.nextState = 1 →
        handleHandshakingPacket 0 d c =
          .ok ((c.setProtocolVersion h.protocolVersion).setState
                ConnectionState.Status)) ∧
      ((h.nextState = 2 ∨ h.nextState = 3) →
        handleHandshakingPacket 0 d c =
          .ok ((c.setProtocolVersion h.protocolVersion).setState
                ConnectionState.Login)) ∧
      (h.nextState ≠ 1 → h.nextState ≠ 2 → h.nextState ≠ 3 →
        handleHandshakingPacket 0 d c =
          .error (.protocol "Invalid next state")) := by
  constructor
  · intro i d c hi
    simp [handleHandshakingPacket, hi]
  · intro d h t c hread
    refine ⟨?_, ?_, ?_⟩
    · intro h1
      simp [handleHandshakingPacket, hread, h1]
    · rintro (h2 | h3)
      · simp [handleHandshakingPacket, hread, h2]
      · have : h.nextState ≠ 1 := by omega
        have : h.nextState ≠ 2 := by omega
        simp_all [handleHandshakingPacket, hread, h3]
    · intro h1 h2 h3
      simp [handleHandshakingPacket, hread, h1, h2, h3]

/-- Claim C4 (witness).  The ignored-packet branch evaluated at packet id
5 on a fresh connection. -/
theorem handshaking_dispatch_behaviour_check :
    handleHandshakingPacket 5 [] Conn.new = .ok Conn.new :=
  handshaking_dispatch_behaviour.1 5 [] Conn.new (by decide)

/-- Claim C9.  `Connection::enable_compression` called on a fresh
connection (still in `Handshaking`) leaves the `compression_enabled` flag
false — `ProtocolState::enable_compression` refuses outside
`Login`/`Play` — but installs the compression codec unconditionally, so
the connection framing behaviour does change: a subsequent
`write_packet` of id `0x42` with body `[1, 2, 3]` emits the compressed
framing `[0, 0x42, 1, 2, 3]` instead of the plain `[4, 0x42, 1, 2, 3]`. -/
theorem enableCompression_bypasses_state_guard :
    Conn.new.state = ConnectionState.Handshaking ∧
    (Conn.new.enableCompression 64).protocolState.compressionEnabled = false ∧
    (Conn.new.enableCompression 64).compression = some 64 ∧
    writePacketData id (Conn.new.enableCompression 64).compression 0x42 [1, 2, 3] =
      .ok [0, 0x42, 1, 2, 3] ∧
    writePacketData id Conn.new.compression 0x42 [1, 2, 3] =
      .ok [4, 0x42, 1, 2, 3] :=
  ⟨rfl, rfl, rfl, rfl, rfl⟩

/-- Claim C7.  `VarInt::write` produces exactly the literal boundary
vectors of the specification, and `VarInt::read` fails with a `Protocol`
error after reading a fifth continuation byte, so every six-byte sequence
whose first five bytes all carry the continuation bit is rejected. -/
theorem varInt_boundary_vectors_and_overlong :
    varIntWrite 0 = [0x00] ∧ varIntWrite 1 = [0x01] ∧
    varIntWrite 127 = [0x7F] ∧ varIntWrite 128 = [0x80, 0x01] ∧
    varIntWrite 255 = [0xFF, 0x01] ∧ varIntWrite 25565 = [0xDD, 0xC7, 0x01] ∧
    varIntWrite (-1) = [0xFF, 0xFF, 0xFF, 0xFF, 0x0F] ∧
    varIntWrite 2147483647 = [0xFF, 0xFF, 0xFF, 0xFF, 0x07] ∧
    ∀ a b c d e f : Nat, a < 256 → b < 256 → c < 256 → d < 256 → e < 256 →
      f < 256 → a &&& 0x80 ≠ 0 → b &&& 0x80 ≠ 0 → c &&& 0x80 ≠ 0 →
      d &&& 0x80 ≠ 0 → e &&& 0x80 ≠ 0 →
      varIntRead [a, b, c, d, e, f] = .error (.protocol "VarInt too long") := by
  refine ⟨rfl, rfl, rfl, rfl, rfl, rfl, rfl, rfl, ?_⟩
  intro a b c d e f _ _ _ _ _ _ ha hb hc hd he
  simp [varIntRead, varIntReadAux, ha, hb, hc, hd, he]

/-- Claim C7 (witness).  The rejection branch evaluated at the all-ones
overlong sequence. -/
theorem varInt_overlong_check :
    varIntRead [0xFF, 0xFF, 0xFF, 0xFF, 0xFF, 0x01] =
      .error (.protocol "VarInt too long") :=
  varInt_boundary_vectors_and_overlong.2.2.2.2.2.2.2.2 0xFF 0xFF 0xFF 0xFF 0xFF
    0x01 (by decide) (by decide) (by decide) (by decide) (by decide) (by decide)
    (by decide) (by decide) (by decide) (by decide) (by decide)

/-- Claim C6.  `Connection::read_packet` rejects any frame whose leading
packet-length `VarInt` is negative, zero, or above `MAX_PACKET_SIZE` with
a `Protocol` error regardless of the compression setting, and every frame
it accepts consists of exactly `packet_len` payload bytes, so the payload
handed to parsing satisfies `1 ≤ length ≤ MAX_PACKET_SIZE`. -/
theorem readPacket_length_validation :
    (∀ (c : Option Nat) (f : List Nat → Nat → Option (List Nat))
       (s : List Nat) (n : Int) (r : List Nat),
       varIntRead s = .ok (n, r) →
       n < 0 ∨ n = 0 ∨ MAX_PACKET_SIZE < n.toNat →
       isProtocolError (readPacket c f s) = true) ∧
    ∀ (s d r : List Nat), readPacketFrame s = .ok (d, r) →
      ∃ (n : Int) (t : List Nat), varIntRead s = .ok (n, t) ∧
        d = t.take n.toNat ∧ r = t.drop n.toNat ∧ d.length = n.toNat ∧
        1 ≤ d.length ∧ d.length ≤ MAX_PACKET_SIZE := by
  constructor
  · intro c f s n r hv hbad
    obtain ⟨msg, hmsg⟩ : ∃ msg, readPacketFrame s = .error (.protocol msg) := by
      rcases hbad with h | h | h
      · exact ⟨_, by simp only [readPacketFrame, hv]; rw [if_pos h]⟩
      · exact ⟨_, by simp only [readPacketFrame, hv]
                     rw [if_neg (by omega), if_pos (by omega)]⟩
      · have hp : ¬(n < 0) := by
          unfold MAX_PACKET_SIZE at h
          omega
        have hz : ¬(n.toNat = 0) := by
          unfold MAX_PACKET_SIZE at h
          omega
        exact ⟨_, by simp only [readPacketFrame, hv]
                     rw [if_neg hp, if_neg hz, if_pos h]⟩
    unfold readPacket
    rw [hmsg]
    rfl
  · intro s d r h
    unfold readPacketFrame at h
    cases hv : varIntRead s with
    | error e => rw [hv] at h; simp at h
    | ok p =>
      obtain ⟨n, t⟩ := p
      rw [hv] at h
      simp only at h
      split_ifs at h with h1 h2 h3
      unfold readExact at h
      by_cases h4 : t.length < n.toNat
      · rw [if_pos h4] at h
        simp at h
      · rw [if_neg h4] at h
        simp only [Except.ok.injEq, Prod.mk.injEq] at h
        obtain ⟨hd, hr⟩ := h
        have hlen : d.length = n.toNat := by
          rw [← hd, List.length_take]
          omega
        have h5 : 1 ≤ d.length := by omega
        have h6 : d.length ≤ MAX_PACKET_SIZE := by
          unfold MAX_PACKET_SIZE at h3 ⊢
          omega
        exact ⟨n, t, rfl, hd.symm, hr.symm, hlen, h5, h6⟩

/-- Claim C6 (witness).  The zero-length rejection evaluated on the
stream `[0x00]` with compression off. -/
theorem readPacket_length_validation_check :
    isProtocolError (readPacket none (fun _ _ => none) [0]) = true :=
  readPacket_length_validation.1 none (fun _ _ => none) [0] 0 [] rfl
    (Or.inr (Or.inl rfl))

/-- Claim C5.  `Compression::decompress_packet` rejects with a `Protocol`
error: any packet whose leading uncompressed-length `VarInt` is `0` but
whose literal remainder is at least `threshold` bytes long; any non-zero
uncompressed length below the threshold or above
`MAX_UNCOMPRESSED_PACKET_SIZE`; and any accepted non-zero length that
does not equal the actual post-inflate size. -/
theorem decompressPacket_size_invariants :
    ∀ (f : List Nat → Nat → Option (List Nat)) (t : Nat) (d : List Nat)
      (n : Int) (r : List Nat), varIntRead d = .ok (n, r) →
      ((n = 0 → t ≤ r.length → isProtocolError (decompressPacket f t d) = true) ∧
       (0 < n → n.toNat < t ∨ MAX_UNCOMPRESSED_PACKET_SIZE < n.toNat →
         isProtocolError (decompressPacket f t d) = true) ∧
       ∀ o : List Nat, 0 < n → t ≤ n.toNat →
         n.toNat ≤ MAX_UNCOMPRESSED_PACKET_SIZE → f r n.toNat = some o →
         o.length ≠ n.toNat →
         isProtocolError (decompressPacket f t d) = true) := by
  intro f t d n r hv
  refine ⟨?_, ?_, ?_⟩
  · intro hn ht
    simp only [decompressPacket, hv]
    rw [if_neg (by omega), if_pos hn, if_pos ht]
    rfl
  · intro hn hbad
    simp only [decompressPacket, hv]
    rw [if_neg (by omega), if_neg (by omega)]
    by_cases hM : MAX_UNCOMPRESSED_PACKET_SIZE < n.toNat
    · rw [if_pos hM]
      rfl
    · have hlt : n.toNat < t := by
        rcases hbad with h | h
        · exact h
        · exact absurd h hM
      rw [if_neg hM, if_pos hlt]
      rfl
  · intro o hn ht hM hf ho
    simp only [decompressPacket, hv]
    rw [if_neg (by omega), if_neg (by omega), if_neg (by omega),
      if_neg (by omega)]
    simp only [hf]
    rw [if_pos ho]
    rfl

/-- Claim C5 (witness).  The zero-marker rejection evaluated on
`[0x00, 0x05]` with threshold 1: the literal remainder has length 1 ≥ 1. -/
theorem decompressPacket_size_invariants_check :
    isProtocolError (decompressPacket (fun _ _ => none) 1 [0, 5]) = true :=
  (decompressPacket_size_invariants (fun _ _ => none) 1 [0, 5] 0 [5] rfl).1 rfl
    (by decide)

/-- Reading exactly the whole stream consumes it and leaves nothing. -/
theorem readExact_full {n : Nat} {bs : List Nat} (h : bs.length = n) :
    readExact n bs = .ok (bs, []) := by
  unfold readExact
  rw [if_neg (by omega), ← h, List.take_length, List.drop_length]

/-- Claim C8 (counterexample).  `Position::write` does not pack
`(x = 18357644, y = 831, z = -20882616)` into the bytes of
`0x4C8000006B00F27E` as the claim states. -/
theorem position_pack_constant_mismatch :
    positionWrite ⟨18357644, 831, -20882616⟩ ≠ beBytes8 0x4C8000006B00F27E := by
  decide

/-- Claim C8 (amended).  `Position::write` packs
`(x = 18357644, y = 831, z = -20882616)` into the big-endian `i64`
`0x4607632C15B4833F`, and for every position whose `x` and `z` fit in 26
signed bits and whose `y` fits in 12 signed bits, `Position::read` applied
to the 8 bytes produced by `Position::write` recovers the triple via
sign-extending shifts. -/
theorem position_pack_value_and_roundtrip :
    positionWrite ⟨18357644, 831, -20882616⟩ = beBytes8 0x4607632C15B4833F ∧
    ∀ p : Position, -2 ^ 25 ≤ p.x → p.x < 2 ^ 25 → -2 ^ 11 ≤ p.y →
      p.y < 2 ^ 11 → -2 ^ 25 ≤ p.z → p.z < 2 ^ 25 →
      positionRead (positionWrite p) = .ok (p, []) := by
  constructor
  · decide
  · intro p hx0 hx1 hy0 hy1 hz0 hz1
    have hfull : readExact 8 (beBytes8 p.packedVal) =
        .ok (beBytes8 p.packedVal, []) := readExact_full rfl
    unfold positionRead positionWrite
    rw [hfull]
    simp only [beCombine_beBytes8 p.packedVal_lt,
      positionOfVal_packedVal p hx0 hx1 hy0 hy1 hz0 hz1]

/-- Claim C8 (witness).  The roundtrip evaluated at the literal triple of
the specification. -/
theorem position_roundtrip_check :
    positionRead (positionWrite ⟨18357644, 831, -20882616⟩) =
      .ok (⟨18357644, 831, -20882616⟩, []) :=
  position_pack_value_and_roundtrip.2 ⟨18357644, 831, -20882616⟩ (by decide)
    (by decide) (by decide) (by decide) (by decide) (by decide)

/-- Claim C10.  In `PlayerManager`, adding two players with the same UUID
from distinct addresses and then removing the first address removes the
shared UUID record (the removal returns the second player, the one that
overwrote the record) while the second address stays in the connection
map, so `get_player_by_addr` on it returns `None`; with distinct UUIDs,
`remove_player` removes exactly that player from both maps, returns it,
and leaves every other connection and player entry unchanged. -/
theorem playerManager_removal_behaviour :
    (∀ (m : PlayerManager) (p q : Player) (a b : Nat), a ≠ b →
      p.uuid = q.uuid →
      (((m.addPlayer p a).addPlayer q b).removePlayer a).1 = some q ∧
      (((m.addPlayer p a).addPlayer q b).removePlayer a).2.getPlayerByAddr b =
        none ∧
      mapLookup b
          ((((m.addPlayer p a).addPlayer q b).removePlayer a).2).connections =
        some q.uuid ∧
      (((m.addPlayer p a).addPlayer q b).removePlayer a).2.getPlayer q.uuid =
        none) ∧
    ∀ (m : PlayerManager) (p q : Player) (a b : Nat), a ≠ b →
      p.uuid ≠ q.uuid →
      (((m.addPlayer p a).addPlayer q b).removePlayer a).1 = some p ∧
      mapLookup a
          ((((m.addPlayer p a).addPlayer q b).removePlayer a).2).connections =
        none ∧
      (((m.addPlayer p a).addPlayer q b).removePlayer a).2.getPlayer p.uuid =
        none ∧
      (∀ c : Nat, c ≠ a →
        mapLookup c
            ((((m.addPlayer p a).addPlayer q b).removePlayer a).2).connections =
          mapLookup c ((m.addPlayer p a).addPlayer q b).connections) ∧
      (∀ u : Nat, u ≠ p.uuid →
        mapLookup u
            ((((m.addPlayer p a).addPlayer q b).removePlayer a).2).players =
          mapLookup u ((m.addPlayer p a).addPlayer q b).players) ∧
      (((m.addPlayer p a).addPlayer q b).removePlayer a).2.getPlayerByAddr b =
        some q := by
  constructor
  · intro m p q a b hab hpq
    have hca : mapLookup a ((m.addPlayer p a).addPlayer q b).connections =
        some p.uuid := by
      simp [PlayerManager.addPlayer, mapLookup_mapInsert_ne hab,
        mapLookup_mapInsert_self]
    have hpl : mapLookup p.uuid ((m.addPlayer p a).addPlayer q b).players =
        some q := by
      simp [PlayerManager.addPlayer, hpq, mapLookup_mapInsert_self]
    have hcb : mapLookup b ((m.addPlayer p a).addPlayer q b).connections =
        some q.uuid := by
      simp [PlayerManager.addPlayer, mapLookup_mapInsert_self]
    have hr : ((m.addPlayer p a).addPlayer q b).removePlayer a =
        (some q,
         { players :=
             mapRemove p.uuid ((m.addPlayer p a).addPlayer q b).players
           connections :=
             mapRemove a ((m.addPlayer p a).addPlayer q b).connections }) := by
      unfold PlayerManager.removePlayer
      rw [hca]
      simp only [hpl]
    refine ⟨by rw [hr], ?_, ?_, ?_⟩
    · rw [hr]
      simp [PlayerManager.getPlayerByAddr, PlayerManager.getPlayer,
        mapLookup_mapRemove_ne (Ne.symm hab), hcb, hpq,
        mapLookup_mapRemove_self]
    · rw [hr]
      simp [mapLookup_mapRemove_ne (Ne.symm hab), hcb]
    · rw [hr]
      simp [PlayerManager.getPlayer, hpq, mapLookup_mapRemove_self]
  · intro m p q a b hab hpq
    have hca : mapLookup a ((m.addPlayer p a).addPlayer q b).connections =
        some p.uuid := by
      simp [PlayerManager.addPlayer, mapLookup_mapInsert_ne hab,
        mapLookup_mapInsert_self]
    have hpl : mapLookup p.uuid ((m.addPlayer p a).addPlayer q b).players =
        some p := by
      simp [PlayerManager.addPlayer, mapLookup_mapInsert_ne hpq,
        mapLookup_mapInsert_self]
    have hcb : mapLookup b ((m.addPlayer p a).addPlayer q b).connections =
        some q.uuid := by
      simp [PlayerManager.addPlayer, mapLookup_mapInsert_self]
    have hql : mapLookup q.uuid ((m.addPlayer p a).addPlayer q b).players =
        some q := by
      simp [PlayerManager.addPlayer, mapLookup_mapInsert_self]
    have hr : ((m.addPlayer p a).addPlayer q b).removePlayer a =
        (some p,
         { players :=
             mapRemove p.uuid ((m.addPlayer p a).addPlayer q b).players
           connections :=
             mapRemove a ((m.addPlayer p a).addPlayer q b).connections }) := by
      unfold PlayerManager.removePlayer
      rw [hca]
      simp only [hpl]
    have hq : q.uuid ≠ p.uuid := Ne.symm hpq
    refine ⟨by rw [hr], ?_, ?_, ?_, ?_, ?_⟩
    · rw [hr]
      simp [mapLookup_mapRemove_self]
    · rw [hr]
      simp [PlayerManager.getPlayer, mapLookup_mapRemove_self]
    · intro c hc
      rw [hr]
      simp [mapLookup_mapRemove_ne hc]
    · intro u hu
      rw [hr]
      simp [mapLookup_mapRemove_ne hu]
    · rw [hr]
      simp [PlayerManager.getPlayerByAddr, PlayerManager.getPlayer,
        mapLookup_mapRemove_ne (Ne.symm hab), hcb,
        mapLookup_mapRemove_ne hq, hql]

/-- Claim C10 (witness).  Both scenarios evaluated on a fresh manager:
UUID 7 shared by two addresses, and distinct UUIDs 5 and 6. -/
theorem playerManager_removal_check :
    (((PlayerManager.new.addPlayer ⟨7, [80]⟩ 1).addPlayer ⟨7, [81]⟩ 2)
        |>.removePlayer 1).2.getPlayerByAddr 2 = none ∧
    (((PlayerManager.new.addPlayer ⟨5, [80]⟩ 1).addPlayer ⟨6, [81]⟩ 2)
        |>.removePlayer 1).1 = some ⟨5, [80]⟩ :=
  ⟨(playerManager_removal_behaviour.1 PlayerManager.new ⟨7, [80]⟩ ⟨7, [81]⟩ 1 2
      (by decide) rfl).2.1,
   (playerManager_removal_behaviour.2 PlayerManager.new ⟨5, [80]⟩ ⟨6, [81]⟩ 1 2
      (by decide) (by decide)).1⟩

end Obsidium
